import Mathlib

/-!
Shallow embedding of the PALS core of biogo: the filter-parameter selector
(Optimise, MemRequired — align/pals/pals.go), the DP kernel's emission,
covering and reverse-retry logic (alignRecursion — align/pals/dp), the GFF
adapter (align/pals/write.go) and the FeaturePair utilities (featureOf,
Invert). Go ints are embedded as Int (no overflow occurs at the magnitudes
involved), Go float64 values as exact rationals, Go integer division as
truncating division (Int.tdiv), and fallible functions return Except.
-/

/-! Module-level default values for filter and alignment (pals.go 32-54). -/

def MaxIGap : Int := 5

def DiffCost : Int := 3

def SameCost : Int := 1

def MatchCost : Int := DiffCost + SameCost

def BlockCost : Int := DiffCost * MaxIGap

def RMatchCost : ℚ := (DiffCost : ℚ) + 1

def MaxAvgIndexListLen : Int := 15

def TubeOffsetDelta : Int := 32

def MinWordLength : Int := 4

def MaxKmerLen : Int := 15

/-- filter.Params as assembled by Optimise (pals.go 140-148). -/
structure FilterParams where
  WordSize : Int
  MinMatch : Int
  MaxError : Int
  TubeOffset : Int
  deriving Repr, DecidableEq

/-- dp.Params as stored by Optimise (pals.go 213-216). -/
structure DPParams where
  MinHitLength : Int
  MinId : ℚ
  deriving Repr, DecidableEq

/-- The error outcomes of Optimise: bio.NewError "bad minId" (pals.go 108),
"bad minHitLength" (111) and "failed to find filter parameters" (208). -/
inductive PalsError where
  | badMinId
  | badMinHitLength
  | parameterSearchFailed
  deriving Repr, DecidableEq

/-- Word count for a word size, as computed by util.Pow4 and by
the expression int(1) shifted left by uint(wordSize)*2 (pals.go 223, 228).
Modelled from the spec: util.Pow4 is not under src; spec section 4.2 gives
the finger size as 4^k entries, and the Go shift yields 0 for negative k
(the uint conversion makes the shift count huge). -/
def pow4 (k : Int) : Int := if k < 0 then 0 else 4 ^ k.toNat

def tubeStateSize : Int := 24

def pointerSize : Int := 8

def uint32Size : Int := 4

/-- filterMemRequired (pals.go 227-236) on a 64-bit platform: finger is
4 bytes per word, pos is one pointer-sized int per target position, and
each of the maxActiveTubes tube states holds three 64-bit ints. -/
def filterMemRequired (targetLen : Int) (fp : FilterParams) : Int :=
  let words := pow4 fp.WordSize
  let tubeWidth := fp.TubeOffset + fp.MaxError
  let maxActiveTubes := Int.tdiv (targetLen + tubeWidth - 1) fp.TubeOffset + 1
  let tubes := maxActiveTubes * tubeStateSize
  let finger := uint32Size * words
  let pos := pointerSize * targetLen
  finger + pos + tubes

/-- MemRequired (pals.go 246-254): filter memory plus sequence bytes; each
*seq.Seq header contributes one pointer under unsafe.Sizeof, and the query
counts only when it is a different sequence from the target. -/
def MemRequired (targetLen queryLen : Int) (sameSeq : Bool) (fp : FilterParams) : Int :=
  let filter := filterMemRequired targetLen fp
  let sequence := targetLen + pointerSize
  let sequence := if sameSeq then sequence else sequence + queryLen + pointerSize
  filter + sequence

/-- Modelled from the spec: filter.MinWordsPerFilterHit is not under src;
spec sections 4.2/4.3 and the glossary give B = n − k·(e+1) + 1. -/
def MinWordsPerFilterHit (n k e : Int) : Int := n + 1 - k * (e + 1)

/-- The rejection test AvgIndexListLength(fp) > MaxAvgIndexListLen
(pals.go 177-190 with 222-224). The float comparison
float64(N)/float64(4^k) > 15.0 holds exactly when 15·4^k < N: numerator,
divisor and threshold are exactly representable at these magnitudes and
the relative gap of any strict inequality exceeds the rounding error; a
zero divisor gives +Inf, i.e. rejection, exactly when 0 < N. -/
def avgIndexListTooLong (targetLen : Int) (k : Int) : Bool :=
  MaxAvgIndexListLen * pow4 k < targetLen

/-- The memory rejection test p.maxMem != nil && mem > *p.maxMem
(pals.go 151). -/
def memOver (maxMem : Option Int) (mem : Int) : Bool :=
  match maxMem with
  | none => false
  | some m => m < mem

/-- The inputs Optimise reads besides minHitLen and minId: the target and
query lengths, whether target and query are the same sequence, the
optional memory cap, and the aligner's tubeOffset field. minWordSize is
the value int(util.Log4(N) − util.Log4(MaxAvgIndexListLen) + 0.5) of
pals.go 125; util.Log4 is not under src, so the computed bound is carried
as a field and the theorems quantify over it. -/
structure OptimiseEnv where
  minWordSize : Int
  targetLen : Int
  queryLen : Int
  sameSeq : Bool
  maxMem : Option Int
  tubeOffset : Int
  deriving Repr, DecidableEq

/-- One iteration of the word-size loop of Optimise (pals.go 140-192):
assemble candidate parameters for this word size — a non-positive
tubeOffset field falls back to MaxError + TubeOffsetDelta — and apply, in
source order, the memory test, the minimum-words test and the
average-index-list-length test. -/
def tryWordSize (env : OptimiseEnv) (seedLength seedDiffs : Int) (wordSize : Int) :
    Option FilterParams :=
  let tubeOffset := if env.tubeOffset > 0 then env.tubeOffset else seedDiffs + TubeOffsetDelta
  let fp : FilterParams := ⟨wordSize, seedLength, seedDiffs, tubeOffset⟩
  if memOver env.maxMem (MemRequired env.targetLen env.queryLen env.sameSeq fp) then none
  else if MinWordsPerFilterHit seedLength wordSize seedDiffs ≤ 0 then none
  else if avgIndexListTooLong env.targetLen wordSize then none
  else some fp

/-- The word sizes the inner loop tries, MaxKmerLen down to minWordSize
(pals.go 140); empty when minWordSize exceeds MaxKmerLen. -/
def wordSizeList (minWordSize : Int) : List Int :=
  (List.range (MaxKmerLen + 1 - minWordSize).toNat).map (fun i => MaxKmerLen - (i : Int))

/-- The inner word-size loop (pals.go 140-192): the parameters of the
first word size passing all three tests, if any. -/
def candidateSearch (env : OptimiseEnv) (seedLength seedDiffs : Int) : Option FilterParams :=
  (wordSizeList env.minWordSize).findSome? (tryWordSize env seedLength seedDiffs)

/-- The outer relaxation loop of Optimise (pals.go 133-209): on failure of
the candidate search, halve seedLength while the Go guard
seedLength >= minHitLen/4 holds, then decrement seedDiffs while positive,
else fail. The minHitLen ≥ 4 hypothesis reflects the minHitLen >
MinWordLength guard and makes the recursion's measure decrease. -/
def optimiseLoop (env : OptimiseEnv) (minHitLen : Nat) (hL : 4 ≤ minHitLen)
    (seedLength seedDiffs : Nat) : Except PalsError FilterParams :=
  match candidateSearch env (seedLength : Int) (seedDiffs : Int) with
  | some fp => .ok fp
  | none =>
    if minHitLen / 4 ≤ seedLength then
      optimiseLoop env minHitLen hL (seedLength / 2) seedDiffs
    else if 0 < seedDiffs then
      optimiseLoop env minHitLen hL seedLength (seedDiffs - 1)
    else
      .error .parameterSearchFailed
termination_by seedLength + seedDiffs
decreasing_by
  · have h1 : 1 ≤ minHitLen / 4 := (Nat.one_le_div_iff (by omega)).mpr hL
    have h2 : seedLength / 2 < seedLength := Nat.div_lt_self (by omega) (by omega)
    omega
  · omega

/-- Optimise (pals.go 106-219), returning the FilterParams and DPParams it
stores on success. seedDiffs = int(float64(minHitLen)·(1−minId)) is the
rational floor: the product is non-negative after the guards, so Go's
truncation toward zero is the floor, and the float product is exact at
these magnitudes. -/
def Optimise (env : OptimiseEnv) (minHitLen : Int) (minId : ℚ) :
    Except PalsError (FilterParams × DPParams) :=
  if minId < 0 ∨ 1 < minId then .error .badMinId
  else if hL : minHitLen ≤ MinWordLength then .error .badMinHitLength
  else
    let seedDiffs := (Rat.floor ((minHitLen : ℚ) * (1 - minId))).toNat
    (optimiseLoop env minHitLen.toNat
        (by simp only [MinWordLength] at hL; omega) minHitLen.toNat seedDiffs).map
      (fun fp => (fp, ⟨minHitLen, minId⟩))

/-- optimiseLoop instrumented with the number of relaxation steps taken
(seed halvings plus seedDiffs decrements); the first component is the
result of optimiseLoop. -/
def optimiseLoopSteps (env : OptimiseEnv) (minHitLen : Nat) (hL : 4 ≤ minHitLen)
    (seedLength seedDiffs : Nat) : Except PalsError FilterParams × Nat :=
  match candidateSearch env (seedLength : Int) (seedDiffs : Int) with
  | some fp => (.ok fp, 0)
  | none =>
    if minHitLen / 4 ≤ seedLength then
      let r := optimiseLoopSteps env minHitLen hL (seedLength / 2) seedDiffs
      (r.1, r.2 + 1)
    else if 0 < seedDiffs then
      let r := optimiseLoopSteps env minHitLen hL seedLength (seedDiffs - 1)
      (r.1, r.2 + 1)
    else
      (.error .parameterSearchFailed, 0)
termination_by seedLength + seedDiffs
decreasing_by
  · have h1 : 1 ≤ minHitLen / 4 := (Nat.one_le_div_iff (by omega)).mpr hL
    have h2 : seedLength / 2 < seedLength := Nat.div_lt_self (by omega) (by omega)
    omega
  · omega

/-- Optimise instrumented with the relaxation step count of its search. -/
def OptimiseSteps (env : OptimiseEnv) (minHitLen : Int) (minId : ℚ) :
    Except PalsError (FilterParams × DPParams) × Nat :=
  if minId < 0 ∨ 1 < minId then (.error .badMinId, 0)
  else if hL : minHitLen ≤ MinWordLength then (.error .badMinHitLength, 0)
  else
    let seedDiffs := (Rat.floor ((minHitLen : ℚ) * (1 - minId))).toNat
    let r := optimiseLoopSteps env minHitLen.toNat
        (by simp only [MinWordLength] at hL; omega) minHitLen.toNat seedDiffs
    (r.1.map (fun fp => (fp, ⟨minHitLen, minId⟩)), r.2)

/-- The (seedLength, seedDiffs) pairs the relaxation schedule submits to
the candidate search, in order: for L ≥ 4 the Go guard
seedLength >= minHitLen/4 admits exactly three halvings (L, L/2, L/4,
L/8), after which seedDiffs counts down to 0 at seed length L/8. -/
def relaxChain (l d : Nat) : List (Nat × Nat) :=
  [(l, d), (l / 2, d), (l / 4, d)] ++ (List.range (d + 1)).reverse.map (fun j => (l / 8, j))

/-- dp.DPHit as used by the kernel in src: half-open target bounds
Abpos/Aepos, query bounds Bbpos/Bepos, the tightest diagonal band, the
score and the float64 identity difference Error (exact rational here). -/
structure DPHit where
  Abpos : Int
  Aepos : Int
  Bbpos : Int
  Bepos : Int
  LowDiagonal : Int
  HighDiagonal : Int
  Score : Int
  Error : ℚ
  deriving Repr, DecidableEq

/-- The |indel| of alignRecursion (dp lines 462-468; the negation with its
overflow panic is the absolute value). -/
def hitIndel (h : DPHit) : Int := |(h.Abpos - h.Bbpos) - (h.Aepos - h.Bepos)|

/-- The identity-difference formula of alignRecursion (dp line 469):
(1/rMatchCost) − (Score − indel)/(rMatchCost·(Bepos − Bbpos)). -/
def hitIdentity (rMatchCost : ℚ) (h : DPHit) : ℚ :=
  1 / rMatchCost -
    ((h.Score : ℚ) - (hitIndel h : ℚ)) / (rMatchCost * ((h.Bepos : ℚ) - (h.Bbpos : ℚ)))

/-- The emission decision of alignRecursion (dp lines 461-514) on the
combined end point highEnd (reverse-trace begin merged with forward-trace
end at line 455): both spans must reach minLen and the identity difference
must be at most maxDiff; the emitted hit records the identity in Error and
swaps the diagonal sign to the target-query convention (line 511). The
trapezoid covering loop is embedded separately as markCovered. -/
def emitHit (rMatchCost maxDiff : ℚ) (minLen : Int) (highEnd : DPHit) : Option DPHit :=
  if minLen ≤ highEnd.Bepos - highEnd.Bbpos ∧ minLen ≤ highEnd.Aepos - highEnd.Abpos then
    let identity := hitIdentity rMatchCost highEnd
    if identity ≤ maxDiff then
      some { highEnd with
               Error := identity,
               LowDiagonal := -highEnd.HighDiagonal,
               HighDiagonal := -highEnd.LowDiagonal }
    else none
  else none

/-- filter.Trapezoid fields read by the kernel (the struct itself is not
under src; spec section 3: Bottom ≤ query ≤ Top, Left ≤ diagonal ≤ Right). -/
structure Trapezoid where
  Bottom : Int
  Top : Int
  Left : Int
  Right : Int
  deriving Repr, DecidableEq

/-- Whether the accepted alignment covers more than 99% of the trapezoid's
area (dp lines 481-505); the two float64 ratios are exact rationals here. -/
def coversTrap (hit : DPHit) (trap : Trapezoid) : Bool :=
  let trapBProjection := trap.Top - trap.Bottom + 1
  let trapAProjection := trap.Right - trap.Left + 1
  let coverageA := if trap.Left < hit.LowDiagonal then hit.LowDiagonal else trap.Left
  let coverageB := if trap.Right > hit.HighDiagonal then hit.HighDiagonal else trap.Right
  if coverageA > coverageB then false
  else
    let coverageA2 := coverageB - coverageA + 1
    let coverageB2 := if trap.Top > hit.Bepos then hit.Bepos - trap.Bottom + 1 else trapBProjection
    ((coverageA2 : ℚ) / (trapAProjection : ℚ)) * ((coverageB2 : ℚ) / (trapBProjection : ℚ)) > 99 / 100

/-- The body of the covering loop (dp lines 474-508) walked over the
trapezoids after the current slot. i is the range index of the Go
subslice k.trapezoids[k.slot+1:], starting at 0, and — exactly as in the
source — it is this subslice-local index that is asserted into covered. -/
def markCoveredFrom (hit : DPHit) : List Trapezoid → Nat → List Bool → List Bool
  | [], _, covered => covered
  | trap :: rest, i, covered =>
    if trap.Bottom ≥ hit.Bepos then covered
    else
      markCoveredFrom hit rest (i + 1)
        (if coversTrap hit trap then covered.set i true else covered)

/-- The covering loop of alignRecursion: for i, trap := range
k.trapezoids[k.slot+1:] with the early break on trap.Bottom ≥ Bepos. -/
def markCovered (hit : DPHit) (trapezoids : List Trapezoid) (slot : Nat)
    (covered : List Bool) : List Bool :=
  markCoveredFrom hit (trapezoids.drop (slot + 1)) 0 covered

/-- The reverse-trace retry loop of alignRecursion (dp lines 451-453).
traceReverse is abstracted as the deterministic function rev from the
xfactor argument to the DPHit end point it stores in k.highEnd; its other
arguments (k.lowEnd's end point and the bottom bound mid+maxIGap) are
fixed while the loop runs. x is the Go loop variable; cur is the current
k.highEnd (stale on entry — the x == 1 disjunct runs the first call
unconditionally). Returns the (xfactor, result) pairs of the calls made
and the final k.highEnd, or none when fuel runs out (the Go loop need not
terminate when maxIGap ≤ 0). -/
def reverseRetryLoop (rev : Int → DPHit) (mid maxIGap blockCost diffCost lowScore : Int)
    (x : Int) (cur : DPHit) : Nat → Option (List (Int × DPHit) × DPHit)
  | 0 => none
  | fuel + 1 =>
    if x = 1 ∨ (cur.Bbpos > mid + x * maxIGap ∧ cur.Score < lowScore) then
      let xfactor := blockCost + 2 * x * diffCost
      let r := rev xfactor
      match reverseRetryLoop rev mid maxIGap blockCost diffCost lowScore (x + 1) r fuel with
      | some (trace, fin) => some ((xfactor, r) :: trace, fin)
      | none => none
    else
      some ([], cur)

/-- feat.Feature fields produced by featureOf and read by Write:
contig id and 0-based start/end. -/
structure Feature where
  ID : String
  Start : Int
  End : Int
  deriving Repr, DecidableEq

/-- pals.FeaturePair (part_001 lines 29-34); Strand is the Go int8. -/
structure FeaturePair where
  A : Feature
  B : Feature
  Score : Int
  Error : ℚ
  Strand : Int
  deriving Repr, DecidableEq

/-- FeaturePair.Invert (part_001 lines 166-174). -/
def FeaturePair.Invert (fp : FeaturePair) : FeaturePair :=
  { A := fp.B, B := fp.A, Score := fp.Score, Error := fp.Error, Strand := fp.Strand }

/-- The GFF record written by Writer.Write (write.go 49-58). The gff-level
serialization (gff.Writer is not under src) is modelled from the spec,
section 6: start/end are 1-based inclusive, so the record start is the
stored 0-based Start plus one. The Attributes string
"Target %s %d %d; maxe %.2g" is kept as its four formatted values. -/
structure GFFRecord where
  SeqName : String
  Source : String
  Feature : String
  Start : Int
  End : Int
  Score : Int
  Strand : Int
  Frame : Int
  AttrTargetID : String
  AttrTargetStart : Int
  AttrTargetEnd : Int
  AttrMaxe : ℚ
  deriving Repr, DecidableEq

/-- Writer.Write (write.go 49-58): location and record coordinates come
from pair.B, the attributes name pair.A with its start offset by +1
("+1 is kludge for absence of gffwriter"), Frame is -1 ('.'). -/
def writeRecord (pair : FeaturePair) : GFFRecord :=
  { SeqName := pair.B.ID
    Source := "pals"
    Feature := "hit"
    Start := pair.B.Start + 1
    End := pair.B.End
    Score := pair.Score
    Strand := pair.Strand
    Frame := -1
    AttrTargetID := pair.A.ID
    AttrTargetStart := pair.A.Start + 1
    AttrTargetEnd := pair.A.End
    AttrMaxe := pair.Error }

/-- One packed contig of the pals packing code (not under src): the
fields featureOf reads — the contained sequence's ID and length and the
contig's offset in the packed super-sequence (contig.from; from is a Lean
keyword, hence start). -/
structure Contig where
  id : String
  len : Int
  start : Int
  deriving Repr, DecidableEq

/-- A packed sequence with the seqMap meta featureOf reads (binMap and
contigs); the packing code is not under src. -/
structure PackedSeq where
  ID : String
  len : Int
  binMap : List Int
  contigs : List Contig
  deriving Repr, DecidableEq

/-- The failure modes of featureOf (part_001 lines 37-93), in source
order; indexPanic stands for the Go runtime panic of an out-of-bounds
binMap or contigs index (never reached when binMap has binCount entries
mapping into contigs). -/
inductive FeatErr where
  | fromGeTo
  | binRange
  | indexPanic
  | contigRange
  | negLength
  deriving Repr, DecidableEq

/-- featureOf (part_001 lines 37-93). binSize is a constant of the packing
code (not under src) and is passed explicitly; integer division is Go's
truncating division. -/
def featureOf (binSize : Int) (contigs : PackedSeq) (fromPos toPos : Int) (comp : Bool) :
    Except FeatErr Feature :=
  let f0 := if comp then contigs.len - toPos else fromPos
  let t0 := if comp then contigs.len - fromPos else toPos
  if f0 ≥ t0 then .error .fromGeTo
  else
    let f1 := if f0 < 0 then 0 else f0
    let t1 := if t0 > contigs.len then contigs.len else t0
    let bin := Int.tdiv (f1 + t1) (2 * binSize)
    let binCount := Int.tdiv (contigs.len + binSize - 1) binSize
    if bin < 0 ∨ bin ≥ binCount then .error .binRange
    else
      match contigs.binMap.get? bin.toNat with
      | none => .error .indexPanic
      | some contigIndex =>
        if contigIndex < 0 ∨ contigIndex ≥ (contigs.contigs.length : Int) then
          .error .contigRange
        else
          let length := t1 - f1
          if length < 0 then .error .negLength
          else
            match contigs.contigs.get? contigIndex.toNat with
            | none => .error .indexPanic
            | some contig =>
              let contigFrom := f1 - contig.start
              let contigTo := contigFrom + length
              let contigFrom2 := if contigFrom < 0 then 0 else contigFrom
              let contigTo2 := if contigTo > contig.len then contig.len else contigTo
              .ok ⟨contig.id, contigFrom2, contigTo2⟩

/-! Claim theorems. -/

/-- C10: FeaturePair.Invert returns the pair with A and B exchanged and
Score, Error and Strand unchanged, and applying it twice gives back the
original pair field for field. -/
theorem invert_swaps_and_involutes (fp : FeaturePair) :
    fp.Invert.A = fp.B ∧ fp.Invert.B = fp.A ∧ fp.Invert.Score = fp.Score ∧
    fp.Invert.Error = fp.Error ∧ fp.Invert.Strand = fp.Strand ∧ fp.Invert.Invert = fp :=
  ⟨rfl, rfl, rfl, rfl, rfl, rfl⟩

/-- C8 counterexample: the record written for a FeaturePair carries the
query feature's coordinates (pair.B, here 30..40), not the target's
1-based coordinates (pair.A, here 10..20) as the claim states. -/
theorem writeRecord_start_is_query_not_target :
    (writeRecord ⟨⟨"t", 10, 20⟩, ⟨"q", 30, 40⟩, 7, 1/10, 1⟩).Start = 31 ∧
    (writeRecord ⟨⟨"t", 10, 20⟩, ⟨"q", 30, 40⟩, 7, 1/10, 1⟩).End = 40 ∧
    (31 : Int) ≠ 10 + 1 ∧ (40 : Int) ≠ 20 :=
  ⟨rfl, rfl, by decide, by decide⟩

/-- C8 amended: Write produces a record whose location is the query contig
id (pair.B.ID), whose feature type is "hit", whose start and end are the
1-based inclusive query coordinates (pair.B, start offset by +1 in the
serialization), whose score and strand come from the pair with frame '.',
and whose attributes carry the target id with the target start offset by
+1 relative to the stored 0-based coordinate, the target end, and the
identity gap. -/
theorem writeRecord_fields (pair : FeaturePair) :
    (writeRecord pair).SeqName = pair.B.ID ∧
    (writeRecord pair).Feature = "hit" ∧
    (writeRecord pair).Start = pair.B.Start + 1 ∧
    (writeRecord pair).End = pair.B.End ∧
    (writeRecord pair).Score = pair.Score ∧
    (writeRecord pair).Strand = pair.Strand ∧
    (writeRecord pair).Frame = -1 ∧
    (writeRecord pair).AttrTargetID = pair.A.ID ∧
    (writeRecord pair).AttrTargetStart = pair.A.Start + 1 ∧
    (writeRecord pair).AttrTargetEnd = pair.A.End ∧
    (writeRecord pair).AttrMaxe = pair.Error :=
  ⟨rfl, rfl, rfl, rfl, rfl, rfl, rfl, rfl, rfl, rfl, rfl⟩

/-- C2: evaluation at the failing input. The accepted alignment (Bepos =
100, diagonal band [-100, 100]) fully covers the later trapezoid at
absolute index 1 = slot + 1, so the claim expects covered = [false, true];
the source instead asserts covered[i] at the subslice-local range index
i = 0 and produces [true, false], marking the current trapezoid itself. -/
theorem markCovered_marks_subslice_local_index :
    markCovered ⟨0, 200, 0, 100, -100, 100, 0, 0⟩
      [⟨300, 400, 50, 60⟩, ⟨0, 9, 0, 9⟩] 0 [false, false] = [true, false] := by
  with_unfolding_all rfl

/-- C1: a DPHit emitted by the kernel's emission decision satisfies both
length guards (minLen ≤ Aepos − Abpos and minLen ≤ Bepos − Bbpos) and
records in Error exactly the alignRecursion identity formula, which is at
most maxDiff = 1 − MinId; and any candidate end point failing a guard is
never emitted. -/
theorem emitted_hits_meet_thresholds (minId : ℚ) (minLen : Int) (highEnd h : DPHit) :
    (emitHit RMatchCost (1 - minId) minLen highEnd = some h →
      minLen ≤ h.Aepos - h.Abpos ∧ minLen ≤ h.Bepos - h.Bbpos ∧
      h.Error = hitIdentity RMatchCost highEnd ∧ h.Error ≤ 1 - minId) ∧
    (¬(minLen ≤ highEnd.Bepos - highEnd.Bbpos ∧ minLen ≤ highEnd.Aepos - highEnd.Abpos ∧
        hitIdentity RMatchCost highEnd ≤ 1 - minId) →
      emitHit RMatchCost (1 - minId) minLen highEnd = none) := by
  constructor
  · intro hsome
    unfold emitHit at hsome
    split at hsome
    case isTrue hspan =>
      dsimp only [] at hsome
      split at hsome
      case isTrue hid =>
        injection hsome with hh
        subst hh
        exact ⟨hspan.2, hspan.1, rfl, hid⟩
      case isFalse hid => exact Option.noConfusion hsome
    case isFalse hspan => exact Option.noConfusion hsome
  · intro hfail
    by_cases h1 : minLen ≤ highEnd.Bepos - highEnd.Bbpos ∧ minLen ≤ highEnd.Aepos - highEnd.Abpos
    · have h2 : ¬ hitIdentity RMatchCost highEnd ≤ 1 - minId := by tauto
      simp [emitHit, h1, h2]
    · simp [emitHit, h1]

/-- C1 witness: the emission decision at a concrete passing end point. -/
theorem emitted_hits_meet_thresholds_witness :
    (5 : Int) ≤ (⟨0, 10, 0, 10, -3, 2, 40, -3/4⟩ : DPHit).Aepos -
        (⟨0, 10, 0, 10, -3, 2, 40, -3/4⟩ : DPHit).Abpos ∧
    (5 : Int) ≤ (⟨0, 10, 0, 10, -3, 2, 40, -3/4⟩ : DPHit).Bepos -
        (⟨0, 10, 0, 10, -3, 2, 40, -3/4⟩ : DPHit).Bbpos ∧
    (⟨0, 10, 0, 10, -3, 2, 40, -3/4⟩ : DPHit).Error =
        hitIdentity RMatchCost ⟨0, 10, 0, 10, -2, 3, 40, 0⟩ ∧
    (⟨0, 10, 0, 10, -3, 2, 40, -3/4⟩ : DPHit).Error ≤ 1 - 9/10 :=
  (emitted_hits_meet_thresholds (9/10) 5 ⟨0, 10, 0, 10, -2, 3, 40, 0⟩
      ⟨0, 10, 0, 10, -3, 2, 40, -3/4⟩).1 (by with_unfolding_all rfl)

/-- Helper: a parameter set returned by tryWordSize carries the word size,
seed length and seed diffs of the candidate, the tube-offset fallback, and
passed the memory test. -/
theorem tryWordSize_some_props (env : OptimiseEnv) (sl sd k : Int) (fp : FilterParams)
    (h : tryWordSize env sl sd k = some fp) :
    fp.WordSize = k ∧ fp.MinMatch = sl ∧ fp.MaxError = sd ∧
    fp.TubeOffset = (if env.tubeOffset > 0 then env.tubeOffset else sd + TubeOffsetDelta) ∧
    memOver env.maxMem (MemRequired env.targetLen env.queryLen env.sameSeq fp) = false := by
  unfold tryWordSize at h
  dsimp only [] at h
  set tOff := (if env.tubeOffset > 0 then env.tubeOffset else sd + TubeOffsetDelta) with htOff
  split_ifs at h with h1 h2 h3
  injection h with h
  subst h
  exact ⟨rfl, rfl, rfl, rfl, by simpa using h1⟩

/-- Helper: a successful optimiseLoop run got its result from a successful
tryWordSize on some relaxed seed parameters. -/
theorem optimiseLoop_ok_from_tryWordSize (env : OptimiseEnv) (minHitLen : Nat)
    (hL : 4 ≤ minHitLen) :
    ∀ (n seedLength seedDiffs : Nat) (fp : FilterParams), seedLength + seedDiffs ≤ n →
      optimiseLoop env minHitLen hL seedLength seedDiffs = .ok fp →
      ∃ sl sd k, tryWordSize env sl sd k = some fp := by
  intro n
  induction n with
  | zero =>
    intro sl sd fp hle hok
    rw [optimiseLoop] at hok
    split at hok
    case h_1 fp' heq =>
      injection hok with hok
      subst hok
      obtain ⟨k, _, hk⟩ := List.exists_of_findSome?_eq_some heq
      exact ⟨(sl : Int), (sd : Int), k, hk⟩
    case h_2 heq =>
      split_ifs at hok with hc1 hc2
      · omega
      · omega
  | succ n ih =>
    intro sl sd fp hle hok
    rw [optimiseLoop] at hok
    split at hok
    case h_1 fp' heq =>
      injection hok with hok
      subst hok
      obtain ⟨k, _, hk⟩ := List.exists_of_findSome?_eq_some heq
      exact ⟨(sl : Int), (sd : Int), k, hk⟩
    case h_2 heq =>
      split_ifs at hok with hc1 hc2
      · exact ih (sl / 2) sd fp (by omega) hok
      · exact ih sl (sd - 1) fp (by omega) hok

/-- Helper: parameters accepted by Optimise come from a successful
tryWordSize. -/
theorem optimise_ok_from_tryWordSize (env : OptimiseEnv) (minHitLen : Int) (minId : ℚ)
    (fp : FilterParams) (dps : DPParams)
    (hok : Optimise env minHitLen minId = .ok (fp, dps)) :
    ∃ sl sd k, tryWordSize env sl sd k = some fp := by
  unfold Optimise at hok
  split_ifs at hok with h1 h2
  dsimp only [] at hok
  cases hres : optimiseLoop env minHitLen.toNat (by simp only [MinWordLength] at h2; omega)
      minHitLen.toNat ((Rat.floor ((minHitLen : ℚ) * (1 - minId))).toNat) with
  | error e => rw [hres] at hok; exact Except.noConfusion hok
  | ok fp' =>
    rw [hres] at hok
    injection hok with hok
    have hfp : fp' = fp := congrArg Prod.fst hok
    subst hfp
    exact optimiseLoop_ok_from_tryWordSize env minHitLen.toNat _ _ _ _ fp' (le_refl _) hres

/-- C6: every parameter set Optimise accepts while a memory ceiling m is
configured satisfies MemRequired ≤ m, MemRequired being the finger, pos
and active-tube estimate of filterMemRequired plus the sequence bytes of
the target (and of the query when distinct). -/
theorem optimise_respects_memory_cap (env : OptimiseEnv) (m : Int) (minHitLen : Int)
    (minId : ℚ) (fp : FilterParams) (dps : DPParams) (hM : env.maxMem = some m)
    (hok : Optimise env minHitLen minId = .ok (fp, dps)) :
    MemRequired env.targetLen env.queryLen env.sameSeq fp ≤ m := by
  obtain ⟨sl, sd, k, hk⟩ := optimise_ok_from_tryWordSize env minHitLen minId fp dps hok
  obtain ⟨-, -, -, -, hmem⟩ := tryWordSize_some_props env sl sd k fp hk
  rw [hM] at hmem
  simp only [memOver, decide_eq_false_iff_not, not_lt] at hmem
  exact hmem

/-- C6 witness: a concrete accepted parameter set under a configured cap. -/
theorem optimise_respects_memory_cap_witness :
    MemRequired 1000 1000 true ⟨15, 400, 24, 56⟩ ≤ 10000000000 :=
  optimise_respects_memory_cap ⟨6, 1000, 1000, true, some 10000000000, 0⟩ 10000000000 400
    (94/100) ⟨15, 400, 24, 56⟩ ⟨400, 94/100⟩ rfl (by with_unfolding_all rfl)

/-- C4 counterexample: a negative tube offset is not rejected — Optimise
proceeds and succeeds, silently substituting MaxError + TubeOffsetDelta
(24 + 32 = 56) for the supplied tube offset −1. -/
theorem optimise_accepts_negative_tube_offset :
    Optimise ⟨6, 100000, 100000, true, none, -1⟩ 400 (94/100) =
      .ok (⟨15, 400, 24, 56⟩, ⟨400, 94/100⟩) := by
  with_unfolding_all rfl

/-- C4 amended: Optimise rejects with a BadParameter error every call
where minId lies outside [0,1] or minHitLen ≤ MinWordLength; a negative
(or zero) tube offset is not rejected — whenever such a call is accepted,
the stored TubeOffset is the fallback MaxError + TubeOffsetDelta. -/
theorem optimise_validation (env : OptimiseEnv) (minHitLen : Int) (minId : ℚ) :
    ((minId < 0 ∨ 1 < minId) → Optimise env minHitLen minId = .error .badMinId) ∧
    (¬(minId < 0 ∨ 1 < minId) → minHitLen ≤ MinWordLength →
      Optimise env minHitLen minId = .error .badMinHitLength) ∧
    (env.tubeOffset ≤ 0 → ∀ fp dps, Optimise env minHitLen minId = .ok (fp, dps) →
      fp.TubeOffset = fp.MaxError + TubeOffsetDelta) := by
  refine ⟨?_, ?_, ?_⟩
  · intro h
    unfold Optimise
    rw [if_pos h]
  · intro h1 h2
    unfold Optimise
    rw [if_neg h1, dif_pos h2]
  · intro ht fp dps hok
    obtain ⟨sl, sd, k, hk⟩ := optimise_ok_from_tryWordSize env minHitLen minId fp dps hok
    obtain ⟨-, -, hme, hto, -⟩ := tryWordSize_some_props env sl sd k fp hk
    rw [hto, if_neg (by omega : ¬ env.tubeOffset > 0), hme]

/-- C4 witness: the validation theorem applied to the accepted call with
tube offset −1. -/
theorem optimise_validation_witness :
    (⟨15, 400, 24, 56⟩ : FilterParams).TubeOffset =
      (⟨15, 400, 24, 56⟩ : FilterParams).MaxError + TubeOffsetDelta :=
  (optimise_validation ⟨6, 100000, 100000, true, none, -1⟩ 400 (94/100)).2.2 (by decide)
    ⟨15, 400, 24, 56⟩ ⟨400, 94/100⟩ (by with_unfolding_all rfl)

/-- Helper: when the candidate search can never succeed, the relaxation
loop always ends with the parameter-search-failed error. -/
theorem optimiseLoop_none_fails (env : OptimiseEnv) (minHitLen : Nat) (hL : 4 ≤ minHitLen)
    (hnone : ∀ sl sd : Int, candidateSearch env sl sd = none) :
    ∀ (n seedLength seedDiffs : Nat), seedLength + seedDiffs ≤ n →
      optimiseLoop env minHitLen hL seedLength seedDiffs = .error .parameterSearchFailed := by
  intro n
  induction n with
  | zero =>
    intro sl sd hle
    rw [optimiseLoop]
    simp only [hnone]
    have h1 : ¬ minHitLen / 4 ≤ sl := by omega
    have h2 : ¬ 0 < sd := by omega
    rw [if_neg h1, if_neg h2]
  | succ n ih =>
    intro sl sd hle
    rw [optimiseLoop]
    simp only [hnone]
    split_ifs with h1 h2
    · exact ih (sl / 2) sd (by omega)
    · exact ih sl (sd - 1) (by omega)
    · rfl

/-- C3 amended: whenever the minimum word size exceeds MaxKmerLen, the
word-size range is empty — no candidate word size is ever tried — and
Optimise returns the parameter-search-failed error for every valid
minHitLen and minId; but it does so only after the relaxation phase
exhausts both budgets, not by failing fast. -/
theorem optimise_kmin_above_kmax (env : OptimiseEnv) (minHitLen : Int) (minId : ℚ)
    (hk : MaxKmerLen < env.minWordSize) (h0 : ¬(minId < 0 ∨ 1 < minId))
    (hL : ¬ minHitLen ≤ MinWordLength) :
    wordSizeList env.minWordSize = [] ∧
    Optimise env minHitLen minId = .error .parameterSearchFailed := by
  have hempty : wordSizeList env.minWordSize = [] := by
    unfold wordSizeList
    have h16 : (MaxKmerLen + 1 - env.minWordSize).toNat = 0 := by
      simp only [MaxKmerLen] at hk ⊢
      omega
    rw [h16]
    rfl
  have hnone : ∀ sl sd : Int, candidateSearch env sl sd = none := by
    intro sl sd
    unfold candidateSearch
    rw [hempty]
    rfl
  refine ⟨hempty, ?_⟩
  unfold Optimise
  rw [if_neg h0, dif_neg hL]
  dsimp only []
  rw [optimiseLoop_none_fails env minHitLen.toNat _ hnone
    (minHitLen.toNat + (Rat.floor ((minHitLen : ℚ) * (1 - minId))).toNat) _ _ (le_refl _)]
  rfl

/-- C3 witness: the amended theorem at a concrete too-large minimum word
size. -/
theorem optimise_kmin_above_kmax_witness :
    wordSizeList 16 = [] ∧
    Optimise ⟨16, 100000, 100000, true, none, 0⟩ 400 (94/100) =
      .error .parameterSearchFailed :=
  optimise_kmin_above_kmax ⟨16, 100000, 100000, true, none, 0⟩ 400 (94/100) (by decide)
    (by with_unfolding_all decide) (by decide)

/-- Helper: the instrumented loop computes the same result as
optimiseLoop. -/
theorem optimiseLoopSteps_fst (env : OptimiseEnv) (minHitLen : Nat) (hL : 4 ≤ minHitLen) :
    ∀ (n seedLength seedDiffs : Nat), seedLength + seedDiffs ≤ n →
      (optimiseLoopSteps env minHitLen hL seedLength seedDiffs).1 =
        optimiseLoop env minHitLen hL seedLength seedDiffs := by
  intro n
  induction n with
  | zero =>
    intro sl sd hle
    rw [optimiseLoopSteps, optimiseLoop]
    cases hc : candidateSearch env (sl : Int) (sd : Int) with
    | some fp => simp [hc]
    | none =>
      simp only [hc]
      have h1 : ¬ minHitLen / 4 ≤ sl := by omega
      have h2 : ¬ 0 < sd := by omega
      rw [if_neg h1, if_neg h2, if_neg h1, if_neg h2]
  | succ n ih =>
    intro sl sd hle
    rw [optimiseLoopSteps, optimiseLoop]
    cases hc : candidateSearch env (sl : Int) (sd : Int) with
    | some fp => simp [hc]
    | none =>
      simp only [hc]
      split_ifs with h1 h2
      · dsimp only []
        rw [ih (sl / 2) sd (by omega)]
      · dsimp only []
        rw [ih sl (sd - 1) (by omega)]
      · rfl

/-- Helper: the instrumented Optimise computes the same result. -/
theorem OptimiseSteps_fst (env : OptimiseEnv) (minHitLen : Int) (minId : ℚ) :
    (OptimiseSteps env minHitLen minId).1 = Optimise env minHitLen minId := by
  unfold OptimiseSteps Optimise
  split_ifs with h1 h2
  · rfl
  · rfl
  · dsimp only []
    rw [optimiseLoopSteps_fst env minHitLen.toNat _
      (minHitLen.toNat + (Rat.floor ((minHitLen : ℚ) * (1 - minId))).toNat) _ _ (le_refl _)]

set_option maxRecDepth 8000 in
/-- C3 counterexample: at minWordSize 16 > MaxKmerLen, minHitLen 400 and
minId 94/100, the word-size range is empty yet the search performs 27
relaxation steps (three seed halvings and 24 seedDiffs decrements) before
returning the parameter-search-failed error — Optimise enters the
relaxation phase instead of failing fast. -/
theorem optimise_relaxes_when_kmin_above_kmax :
    OptimiseSteps ⟨16, 100000, 100000, true, none, 0⟩ 400 (94/100) =
      (.error .parameterSearchFailed, 27) ∧ (27 : Nat) ≠ 0 := by
  constructor
  · with_unfolding_all rfl
  · decide

/-- Helper: reversing the range of n+1 exposes n at the head. -/
theorem range_reverse_cons (n : Nat) :
    (List.range (n + 1)).reverse = n :: (List.range n).reverse := by
  rw [List.range_succ, List.reverse_append, List.reverse_singleton]
  rfl

/-- Helper: once the seed length has dropped below minHitLen/4, the
relaxation loop is the first candidate-search success over the seedDiffs
countdown d, d−1, ..., 0 at that seed length. -/
theorem optimiseLoop_countdown (env : OptimiseEnv) (minHitLen : Nat) (hL : 4 ≤ minHitLen)
    (sl : Nat) (hsl : ¬ minHitLen / 4 ≤ sl) :
    ∀ d : Nat,
      optimiseLoop env minHitLen hL sl d =
        match ((List.range (d + 1)).reverse.map (fun j => (sl, j))).findSome?
            (fun p => candidateSearch env (p.1 : Int) (p.2 : Int)) with
        | some fp => .ok fp
        | none => .error .parameterSearchFailed := by
  intro d
  induction d with
  | zero =>
    rw [optimiseLoop]
    rw [range_reverse_cons, List.range_zero, List.reverse_nil, List.map_cons, List.map_nil,
        List.findSome?_cons]
    cases hc : candidateSearch env (sl : Int) ((0 : Nat) : Int) with
    | some fp => rfl
    | none =>
      rw [if_neg hsl, if_neg (by omega : ¬ 0 < (0 : Nat))]
      rfl
  | succ d ih =>
    rw [optimiseLoop]
    rw [range_reverse_cons, List.map_cons, List.findSome?_cons]
    cases hc : candidateSearch env (sl : Int) ((d + 1 : Nat) : Int) with
    | some fp => rfl
    | none =>
      rw [if_neg hsl, if_pos (by omega : 0 < d + 1)]
      simpa using ih

/-- Helper: from seed length l = minHitLen, the relaxation loop is exactly
the first candidate-search success along relaxChain. -/
theorem optimiseLoop_eq_relaxChain (env : OptimiseEnv) (l : Nat) (hL : 4 ≤ l) (d : Nat) :
    optimiseLoop env l hL l d =
      match (relaxChain l d).findSome? (fun p => candidateSearch env (p.1 : Int) (p.2 : Int)) with
      | some fp => .ok fp
      | none => .error .parameterSearchFailed := by
  have e1 : l / 2 / 2 = l / 4 := by omega
  have e2 : l / 4 / 2 = l / 8 := by omega
  have h1 : l / 4 ≤ l := Nat.div_le_self l 4
  have h2 : l / 4 ≤ l / 2 := by omega
  have h4 : ¬ l / 4 ≤ l / 8 := by omega
  rw [relaxChain]
  simp only [List.cons_append, List.nil_append, List.findSome?_cons]
  rw [optimiseLoop]
  cases hc1 : candidateSearch env (l : Int) (d : Int) with
  | some fp => rfl
  | none =>
    rw [if_pos h1]
    rw [optimiseLoop]
    cases hc2 : candidateSearch env ((l / 2 : Nat) : Int) (d : Int) with
    | some fp => rfl
    | none =>
      rw [if_pos h2, e1]
      rw [optimiseLoop]
      cases hc3 : candidateSearch env ((l / 4 : Nat) : Int) (d : Int) with
      | some fp => rfl
      | none =>
        rw [if_pos (le_refl (l / 4)), e2]
        exact optimiseLoop_countdown env l hL (l / 8) h4 d

/-- C5: with valid inputs, Optimise's result is exactly the first
candidate-search success along the relaxation chain — seedLength halved
while the Go guard seedLength ≥ minHitLen/4 holds (giving L, L/2, L/4,
L/8), then seedDiffs decremented one at a time down to 0, the candidate
loop retried after each relaxation step — and it returns the
parameter-search-failed error exactly when every pair in the chain
fails. -/
theorem optimise_relaxation_schedule (env : OptimiseEnv) (minHitLen : Int) (minId : ℚ)
    (h0 : ¬(minId < 0 ∨ 1 < minId)) (hL : ¬ minHitLen ≤ MinWordLength) :
    Optimise env minHitLen minId =
      match (relaxChain minHitLen.toNat
            ((Rat.floor ((minHitLen : ℚ) * (1 - minId))).toNat)).findSome?
          (fun p => candidateSearch env (p.1 : Int) (p.2 : Int)) with
      | some fp => .ok (fp, ⟨minHitLen, minId⟩)
      | none => .error .parameterSearchFailed := by
  unfold Optimise
  rw [if_neg h0, dif_neg hL]
  dsimp only []
  rw [optimiseLoop_eq_relaxChain]
  cases (relaxChain minHitLen.toNat
      ((Rat.floor ((minHitLen : ℚ) * (1 - minId))).toNat)).findSome?
      (fun p => candidateSearch env (p.1 : Int) (p.2 : Int)) with
  | some fp => rfl
  | none => rfl

set_option maxRecDepth 8000 in
/-- C5 witness: the schedule theorem at a concrete accepted call. -/
theorem optimise_relaxation_schedule_witness :
    Optimise ⟨6, 100000, 100000, true, none, 0⟩ 400 (94/100) =
      match (relaxChain (400 : Int).toNat
            ((Rat.floor (((400 : Int) : ℚ) * (1 - 94/100))).toNat)).findSome?
          (fun p => candidateSearch ⟨6, 100000, 100000, true, none, 0⟩ (p.1 : Int) (p.2 : Int)) with
      | some fp => .ok (fp, ⟨400, 94/100⟩)
      | none => .error .parameterSearchFailed :=
  optimise_relaxation_schedule ⟨6, 100000, 100000, true, none, 0⟩ 400 (94/100)
    (by with_unfolding_all decide) (by decide)

/-- Helper: the trace of the reverse-retry loop from an arbitrary loop
counter x — non-emptiness matches the entry condition, the i-th call uses
xfactor = blockCost + 2·(x+i)·diffCost, and a further call happens exactly
when the loop condition holds at the incremented counter for the i-th
result. -/
theorem reverseRetryLoop_trace_spec (rev : Int → DPHit)
    (mid maxIGap blockCost diffCost lowScore : Int) :
    ∀ (fuel : Nat) (x : Int) (cur : DPHit) (trace : List (Int × DPHit)) (fin : DPHit),
      reverseRetryLoop rev mid maxIGap blockCost diffCost lowScore x cur fuel =
          some (trace, fin) →
      ((0 < trace.length ↔
          (x = 1 ∨ (cur.Bbpos > mid + x * maxIGap ∧ cur.Score < lowScore))) ∧
        (∀ i (hi : i < trace.length),
          (trace.get ⟨i, hi⟩).1 = blockCost + 2 * (x + (i : Int)) * diffCost) ∧
        (∀ i (hi : i < trace.length),
          (i + 1 < trace.length ↔
            (x + (i : Int) + 1 = 1 ∨
              ((trace.get ⟨i, hi⟩).2.Bbpos > mid + (x + (i : Int) + 1) * maxIGap ∧
                (trace.get ⟨i, hi⟩).2.Score < lowScore))))) := by
  intro fuel
  induction fuel with
  | zero =>
    intro x cur trace fin h
    exact Option.noConfusion h
  | succ fuel ih =>
    intro x cur trace fin h
    rw [reverseRetryLoop] at h
    split at h
    case isTrue hcond =>
      dsimp only [] at h
      cases hin : reverseRetryLoop rev mid maxIGap blockCost diffCost lowScore (x + 1)
          (rev (blockCost + 2 * x * diffCost)) fuel with
      | none => rw [hin] at h; exact Option.noConfusion h
      | some p =>
        obtain ⟨t, f⟩ := p
        rw [hin] at h
        simp only [Option.some.injEq, Prod.mk.injEq] at h
        obtain ⟨rfl, rfl⟩ := h
        obtain ⟨a1, a2, a3⟩ := ih (x + 1) (rev (blockCost + 2 * x * diffCost)) t f hin
        refine ⟨⟨fun _ => hcond, fun _ => Nat.succ_pos _⟩, ?_, ?_⟩
        · intro i hi
          cases i with
          | zero => simp
          | succ j =>
            have hj : j < t.length := by simpa using hi
            have := a2 j hj
            rw [List.get_cons_succ]
            rw [this]
            push_cast
            ring
        · intro i hi
          cases i with
          | zero =>
            have hiff : 0 + 1 < (((blockCost + 2 * x * diffCost,
                rev (blockCost + 2 * x * diffCost)) :: t).length) ↔ 0 < t.length := by
              simp
            rw [hiff, a1]
            have hx : x + ((0 : Nat) : Int) + 1 = x + 1 := by push_cast; ring
            rw [hx]
            exact Iff.rfl
          | succ j =>
            have hj : j < t.length := by simpa using hi
            have hiff : j + 1 + 1 < (((blockCost + 2 * x * diffCost,
                rev (blockCost + 2 * x * diffCost)) :: t).length) ↔ j + 1 < t.length := by
              simp
            rw [hiff, a3 j hj, List.get_cons_succ]
            have hx : x + 1 + ((j : Nat) : Int) + 1 = x + ((j + 1 : Nat) : Int) + 1 := by
              push_cast
              ring
            rw [hx]
    case isFalse hcond =>
      simp only [Option.some.injEq, Prod.mk.injEq] at h
      obtain ⟨rfl, rfl⟩ := h
      refine ⟨?_, ?_, ?_⟩
      · simp only [List.length_nil]
        constructor
        · intro hfalse
          exact absurd hfalse (by omega)
        · intro hc
          exact absurd hc hcond
      · intro i hi
        exact absurd hi (by simp)
      · intro i hi
        exact absurd hi (by simp)

/-- C7: any completed run of the reverse-trace retry loop starts with an
unconditional x = 1 call, its i-th call (0-based) passes xfactor =
BlockCost + 2·(i+1)·DiffCost to traceReverse, and call i+1 is made exactly
when call i's reverse end still has Bbpos above mid + (i+2)·MaxIGap and
its score below the forward trace's score. -/
theorem reverse_retry_schedule (rev : Int → DPHit)
    (mid maxIGap blockCost diffCost lowScore : Int) (cur : DPHit) (fuel : Nat)
    (trace : List (Int × DPHit)) (fin : DPHit)
    (h : reverseRetryLoop rev mid maxIGap blockCost diffCost lowScore 1 cur fuel =
        some (trace, fin)) :
    0 < trace.length ∧
    (∀ i (hi : i < trace.length),
      (trace.get ⟨i, hi⟩).1 = blockCost + 2 * ((i : Int) + 1) * diffCost) ∧
    (∀ i (hi : i < trace.length),
      (i + 1 < trace.length ↔
        ((trace.get ⟨i, hi⟩).2.Bbpos > mid + ((i : Int) + 2) * maxIGap ∧
          (trace.get ⟨i, hi⟩).2.Score < lowScore))) := by
  obtain ⟨a1, a2, a3⟩ :=
    reverseRetryLoop_trace_spec rev mid maxIGap blockCost diffCost lowScore fuel 1 cur
      trace fin h
  refine ⟨a1.mpr (Or.inl rfl), ?_, ?_⟩
  · intro i hi
    rw [a2 i hi]
    ring
  · intro i hi
    rw [a3 i hi]
    have hx : (1 : Int) + (i : Int) + 1 = (i : Int) + 2 := by ring
    rw [hx]
    have hne : ¬ ((i : Int) + 2 = 1) := by omega
    simp [hne]

/-- C7 witness: a loop run that stops after the unconditional first call. -/
theorem reverse_retry_schedule_witness :
    0 < ([((21 : Int), (⟨0, 0, 0, 0, 0, 0, 0, 0⟩ : DPHit))] : List (Int × DPHit)).length :=
  (reverse_retry_schedule (fun _ => ⟨0, 0, 0, 0, 0, 0, 0, 0⟩) 0 5 15 3 0
      ⟨0, 0, 0, 0, 0, 0, 0, 0⟩ 2 [((21 : Int), ⟨0, 0, 0, 0, 0, 0, 0, 0⟩)]
      ⟨0, 0, 0, 0, 0, 0, 0, 0⟩ (by with_unfolding_all rfl)).1

/-- C9 counterexample: an interval with fromPos < toPos lying wholly
beyond the sequence end (65..69 on a 64-long packed sequence with a
consistent two-bin map) is clamped to 65..64 and then fails the bin-range
test — an error arising from the out-of-range values themselves, which
the claim rules out for every fromPos < toPos. -/
theorem featureOf_out_of_range_errors :
    featureOf 32 ⟨"packed", 64, [0, 0], [⟨"c", 64, 0⟩]⟩ 65 69 false = .error .binRange := by
  with_unfolding_all rfl

/-- C9 amended: featureOf clamps out-of-range endpoints and proceeds —
for fromPos < toPos whose clamped interval is still nonempty it behaves
exactly as on the clamped endpoints max(fromPos,0) and min(toPos,len) and,
under a consistent binMap, returns a feature rather than an error; but an
interval lying entirely outside the sequence can still fail even with
fromPos < toPos, and fromPos ≥ toPos always yields the from > to error.
The complement transform only remaps the interval before the same
processing. -/
theorem featureOf_clamps (binSize : Int) (s : PackedSeq) (fromPos toPos : Int)
    (hbs : 1 ≤ binSize)
    (hbm : (s.binMap.length : Int) = Int.tdiv (s.len + binSize - 1) binSize)
    (hel : ∀ ci ∈ s.binMap, 0 ≤ ci ∧ ci < (s.contigs.length : Int)) :
    (fromPos ≥ toPos → featureOf binSize s fromPos toPos false = .error .fromGeTo) ∧
    (fromPos < toPos → max fromPos 0 < min toPos s.len →
      featureOf binSize s fromPos toPos false =
          featureOf binSize s (max fromPos 0) (min toPos s.len) false ∧
        ∃ feat, featureOf binSize s fromPos toPos false = .ok feat) ∧
    featureOf binSize s fromPos toPos true =
      featureOf binSize s (s.len - toPos) (s.len - fromPos) false := by
  refine ⟨?_, ?_, ?_⟩
  · intro hge
    unfold featureOf
    simp only [if_neg Bool.false_ne_true]
    rw [if_pos hge]
  · intro hlt hcl
    have hclampF : (if fromPos < 0 then 0 else fromPos) = max fromPos 0 := by
      rcases lt_or_le fromPos 0 with h | h
      · simp [h, max_eq_right h.le]
      · simp [not_lt.mpr h, max_eq_left h]
    have hclampT : (if toPos > s.len then s.len else toPos) = min toPos s.len := by
      rcases lt_or_le s.len toPos with h | h
      · simp [h, min_eq_right h.le]
      · simp [not_lt.mpr h, min_eq_left h]
    have hmain : featureOf binSize s fromPos toPos false =
        featureOf binSize s (max fromPos 0) (min toPos s.len) false := by
      unfold featureOf
      simp only [if_neg Bool.false_ne_true]
      rw [if_neg (not_le.mpr hlt), if_neg (not_le.mpr hcl)]
      rw [hclampF, hclampT]
      rw [if_neg (not_lt.mpr (le_max_right fromPos 0)),
          if_neg (not_lt.mpr (min_le_right toPos s.len))]
    have hokk : ∃ feat,
        featureOf binSize s (max fromPos 0) (min toPos s.len) false = .ok feat := by
      set a := max fromPos 0 with ha
      set b := min toPos s.len with hb
      have ha0 : 0 ≤ a := le_max_right _ _
      have hbl : b ≤ s.len := min_le_right _ _
      have hab : a < b := hcl
      have hlen1 : 1 ≤ s.len := by omega
      unfold featureOf
      simp only [if_neg Bool.false_ne_true]
      rw [if_neg (not_le.mpr hab)]
      rw [if_neg (not_lt.mpr ha0), if_neg (not_lt.mpr hbl)]
      have hD : (0 : Int) < 2 * binSize := by omega
      set q := Int.tdiv (s.len + binSize - 1) binSize with hq
      have hqe : q = (s.len + binSize - 1) / binSize := by
        rw [hq]
        exact Int.tdiv_eq_ediv (by omega) (by omega)
      have hbin_e : Int.tdiv (a + b) (2 * binSize) = (a + b) / (2 * binSize) :=
        Int.tdiv_eq_ediv (by omega) (by omega)
      have hbin0 : 0 ≤ Int.tdiv (a + b) (2 * binSize) :=
        Int.tdiv_nonneg (by omega) (by omega)
      have hqb : s.len ≤ binSize * q := by
        have hmod := Int.emod_lt_of_pos (s.len + binSize - 1) (by omega : (0 : Int) < binSize)
        have hmod0 : 0 ≤ (s.len + binSize - 1) % binSize := Int.emod_nonneg _ (by omega)
        have hdm := Int.ediv_add_emod (s.len + binSize - 1) binSize
        rw [hqe]
        omega
      have hbinlt : Int.tdiv (a + b) (2 * binSize) < q := by
        rw [hbin_e, Int.ediv_lt_iff_lt_mul hD]
        have h2 : q * (2 * binSize) = 2 * (binSize * q) := by ring
        omega
      rw [if_neg (by push_neg; exact ⟨hbin0, hbinlt⟩)]
      have hbt : (Int.tdiv (a + b) (2 * binSize)).toNat < s.binMap.length := by omega
      rw [List.get?_eq_get hbt]
      dsimp only []
      have hmem := List.get_mem s.binMap _ hbt
      obtain ⟨hci0, hcilt⟩ := hel _ hmem
      rw [if_neg (by push_neg; exact ⟨hci0, hcilt⟩)]
      rw [if_neg (by omega : ¬ b - a < 0)]
      have hct : (s.binMap.get ⟨_, hbt⟩).toNat < s.contigs.length := by omega
      rw [List.get?_eq_get hct]
      dsimp only []
      exact ⟨_, rfl⟩
    refine ⟨hmain, ?_⟩
    rw [hmain]
    exact hokk
  · with_unfolding_all rfl

/-- C9 witness: a concrete interval straddling the sequence start is
processed exactly as its clamped counterpart. -/
theorem featureOf_clamps_witness :
    featureOf 32 ⟨"packed", 64, [0, 0], [⟨"c", 64, 0⟩]⟩ (-5) 70 false =
      featureOf 32 ⟨"packed", 64, [0, 0], [⟨"c", 64, 0⟩]⟩ (max (-5) 0) (min 70 64) false :=
  ((featureOf_clamps 32 ⟨"packed", 64, [0, 0], [⟨"c", 64, 0⟩]⟩ (-5) 70 (by decide)
      (by decide) (by decide)).2.1 (by decide) (by decide)).1
